import Mathlib

/-!
Shallow embedding of the `stolab/ipfs-api` Go repository.

The repository holds two generations of the same client code:

* `V1` below embeds the free-function implementation found in `src/api.go`
  (package `main`) and, identically, in the first copy inside
  `src/client/api.go`: `(*Client).Add`, `createMultiPartBody`,
  `createDirectoryMultiPartBody`, `(*Client).Cat`, `readIPFSResponse`.

* `CL` below embeds the method-based implementation in the second copy inside
  `src/client/api.go`: `(*Client).Add`, `(*Client).AddBinary`,
  `(*Client).createMultiPartBody`, `(*Client).createDirectoryMultiPartBody`.

Go standard-library effects are made explicit parameters of the embedding:

* the filesystem (`os.Stat`, `os.ReadDir`, `os.Open`, reading during
  `io.Copy`) is a finite association list `FS` from path strings to nodes;
  a file node carries its content together with two flags: whether
  `os.Open` succeeds and whether reading its bytes (`io.Copy`) succeeds;
* the random multipart boundary chosen by `multipart.NewWriter` is the
  explicit argument `b`;
* the HTTP transport (`http.Client.Do`) is a function from requests to
  either a network error or a `Response`;
* `json.Unmarshal` into an `IPFSResponse` is a function
  `parse : String → Option IPFSResponse` (`none` models an unmarshal error,
  in which case Go leaves the zero-initialised target struct untouched).

A multipart body is abstracted as its boundary string, its ordered list of
parts and whether the final `--boundary--` terminator was written
(`writer.Close()`); this is exactly the information Go's `multipart.Writer`
commits to the underlying buffer.  The mutually recursive `V1` helpers walk
the filesystem through path strings that the code concatenates itself, so
they are driven by an explicit fuel counter; all claims are settled with
ample fuel and the fuel-exhaustion branch is unreachable there.
-/

namespace IpfsApi

/-- One entry reported by `os.ReadDir`: a name and whether it is a directory. -/
structure DirEntry where
  name : String
  isDir : Bool
  deriving Repr, DecidableEq

/-- A filesystem node: a regular file (content, whether `os.Open` succeeds,
whether reading the content succeeds) or a directory with its ordered
listing. -/
inductive FSNode where
  | file (content : String) (openOk : Bool) (readOk : Bool)
  | dir (entries : List DirEntry)
  deriving Repr, DecidableEq

/-- The filesystem: a finite association list from path strings to nodes.
Path strings are compared exactly as the Go code builds them by
concatenation. -/
abbrev FS := List (String × FSNode)

/-- Look a path up in the filesystem. -/
def fsFind (fs : FS) (p : String) : Option FSNode :=
  match fs with
  | [] => none
  | (q, n) :: rest => if q = p then some n else fsFind rest p

/-- Model of `os.Stat`: `some true` for a directory, `some false` for a
regular file, `none` when stat fails (path does not exist). -/
def osStat (fs : FS) (p : String) : Option Bool :=
  match fsFind fs p with
  | some (.file _ _ _) => some false
  | some (.dir _) => some true
  | none => none

/-- Model of `os.ReadDir`: the ordered listing of a directory, `none` on
failure (missing path or not a directory). -/
def osReadDir (fs : FS) (p : String) : Option (List DirEntry) :=
  match fsFind fs p with
  | some (.dir es) => some es
  | _ => none

/-- Model of `os.Open`: an opened handle is the pair
(reads succeed, content); `none` when the open itself fails. -/
def osOpen (fs : FS) (p : String) : Option (Bool × String) :=
  match fsFind fs p with
  | some (.file c o r) => if o then some (r, c) else none
  | _ => none

/-- One part of a multipart/form-data body. -/
structure Part where
  fieldname : String
  filename : String
  content : String
  deriving Repr, DecidableEq

/-- The state of a `multipart.Writer`: its boundary, the parts written so
far, and whether `Close` has written the final terminator. -/
structure MultipartWriter where
  boundary : String
  parts : List Part
  closed : Bool
  deriving Repr, DecidableEq

/-- Model of `multipart.NewWriter`: fresh writer with the (randomly chosen)
boundary `b`. -/
def newWriter (b : String) : MultipartWriter :=
  { boundary := b, parts := [], closed := false }

/-- Model of `writer.CreateFormFile(field, name)`: starts a new part with
empty content; the returned `io.Writer` is the last part of the list.
On a `bytes.Buffer` this operation cannot fail. -/
def MultipartWriter.createFormFile (w : MultipartWriter) (field name : String) :
    MultipartWriter :=
  { w with parts := w.parts ++ [⟨field, name, ""⟩] }

/-- Append bytes to the most recently created part (the target of the
`io.Writer` returned by `CreateFormFile`). -/
def appendToLast (ps : List Part) (s : String) : List Part :=
  match ps with
  | [] => []
  | [p] => [{ p with content := p.content ++ s }]
  | p :: rest => p :: appendToLast rest s

/-- Model of `io.Copy(formFile, handle)`: when the handle's reads succeed the
content is copied into the current part and no error is reported; when they
fail nothing is copied and the copy reports an error (second component
`true`). -/
def ioCopyFile (w : MultipartWriter) (h : Bool × String) :
    MultipartWriter × Bool :=
  if h.1 then ({ w with parts := appendToLast w.parts h.2 }, false)
  else (w, true)

/-- Model of `writer.Close()`: writes the final boundary terminator. -/
def MultipartWriter.close (w : MultipartWriter) : MultipartWriter :=
  { w with closed := true }

/-- The multipart body committed to the request buffer: boundary used for
the delimiters, parts in order, and whether the terminator is present. -/
structure MultipartBody where
  boundary : String
  parts : List Part
  terminated : Bool
  deriving Repr, DecidableEq

/-- The body a writer has produced. -/
def MultipartWriter.toBody (w : MultipartWriter) : MultipartBody :=
  { boundary := w.boundary, parts := w.parts, terminated := w.closed }

/-- An HTTP request as the client builds it: method, URL, the boundary
announced in the `Content-Type` header (if that header is set), and the
multipart body (if any). -/
structure Request where
  method : String
  url : String
  contentTypeBoundary : Option String
  body : Option MultipartBody
  deriving Repr, DecidableEq

/-- Errors of the embedded code: filesystem failures and transport
failures. -/
inductive GoError where
  | ioError (path : String)
  | netError (msg : String)
  deriving Repr, DecidableEq

/-- An HTTP response: status code, the outcome `io.ReadAll(resp.Body)`
would produce (`none` models a read error, whose payload the code never
inspects), and whether the body stream has been closed. -/
structure Response where
  status : Nat
  bodyData : Option String
  bodyClosed : Bool
  deriving Repr, DecidableEq

/-- The HTTP transport (`http.Client.Do`). -/
abbrev Transport := Request → Except GoError Response

/-- The struct deserialized from the add response (`IPFSResponse` in the
source; the spec calls it `UploadResult`). -/
structure IPFSResponse where
  Name : String
  Hash : String
  Size : String
  deriving Repr, DecidableEq

/-- The zero value of `IPFSResponse`, as produced by `new(IPFSResponse)`. -/
def IPFSResponse.zero : IPFSResponse := ⟨"", "", ""⟩

/-- Model of `json.Unmarshal` into an `IPFSResponse`: `none` is an
unmarshal error (the zero-initialised target is left untouched). -/
abbrev JsonParse := String → Option IPFSResponse

/-- The client structure: only its `url` field is read by the embedded
operations. -/
structure Client where
  url : String
  deriving Repr, DecidableEq

/-- The `apiEndpoint` map of the source. -/
def apiEndpoint (k : String) : String :=
  if k = "add" then "/api/v0/" ++ "add"
  else if k = "cat" then "/api/v0/" ++ "cat"
  else ""

/-- Model of Go's `path.Base`: empty path gives ".", trailing slashes are
stripped, the segment after the last slash is returned, and a path of only
slashes gives "/". -/
def pathBase (p : String) : String :=
  if p.data = [] then "." else
    let stripped := p.data.reverse.dropWhile (fun c => c == '/')
    let baseRev := stripped.takeWhile (fun c => !(c == '/'))
    if baseRev = [] then "/" else String.mk baseRev.reverse

/-- Embedding of `readIPFSResponse` (identical in both generations of the
source): zero-initialise the result, defer closing the body, read it all
(returning Go `nil` — here `none` — if the read fails), unmarshal ignoring
the unmarshal error, and return.  The second component is the final state
of the response, whose body the deferred `Close` has closed. -/
def readIPFSResponse (parse : JsonParse) (resp : Response) :
    Option IPFSResponse × Response :=
  let closed := { resp with bodyClosed := true }
  match resp.bodyData with
  | none => (none, closed)
  | some bytes =>
    match parse bytes with
    | none => (some IPFSResponse.zero, closed)
    | some r => (some r, closed)

/-- What an `Add`-style operation produced: the requests actually handed to
`http.Client.Do`, the final state of the received response (if any), and
the Go return pair (`*IPFSResponse`, `error`), both components of which may
independently be `nil`. -/
structure AddOutcome where
  sent : List Request
  finalResp : Option Response
  result : Option IPFSResponse
  err : Option GoError
  deriving Repr, DecidableEq

/-- Shared tail of the add operations: perform the exchange and feed a
successful response through `readIPFSResponse`, returning its result with a
`nil` error. -/
def doRequest (parse : JsonParse) (transport : Transport) (req : Request) :
    AddOutcome :=
  match transport req with
  | .error e => ⟨[req], none, none, some e⟩
  | .ok resp =>
    match readIPFSResponse parse resp with
    | (ret, resp2) => ⟨[req], some resp2, ret, none⟩

/-- Embedding of `(*Client).Cat` (identical in both generations): build the
single POST request with no body and hand back whatever the transport
returns, untouched. -/
def catRequest (c : Client) (id : String) : Request :=
  { method := "POST", url := c.url ++ apiEndpoint "cat" ++ "?arg=" ++ id,
    contentTypeBoundary := none, body := none }

/-- Embedding of `(*Client).Cat`: returns the list of requests given to the
transport together with the Go return value. -/
def Cat (c : Client) (id : String) (transport : Transport) :
    List Request × Except GoError Response :=
  let req := catRequest c id
  match transport req with
  | .error e => ([req], .error e)
  | .ok r => ([req], .ok r)

namespace V1

/-- The three mutually recursive shapes of the free-function implementation:
`createMultiPartBody`, `createDirectoryMultiPartBody`, and the body of the
`for index, file := range entries` loop inside the latter (carrying the
current `index` and `writerBoundary` values). -/
inductive MpCall where
  | fileCall (pathName : String)
  | dirCall (pathName : String)
  | loopCall (pathName : String) (entries : List DirEntry) (index : Nat)
      (wb : String)

/-- Interpreter for the mutually recursive `V1` helpers, driven by fuel so
that the path-string recursion of the source is total in the embedding.
Result: final writer state, the `writerBoundary` string returned, and the
returned error.  Each equation mirrors the corresponding Go source:

* `fileCall`: `createMultiPartBody` — `os.Stat`, directory dispatch (with
  the error of the directory helper discarded by `writerBoundary, _ = ...`),
  else `CreateFormFile("file", path.Base(pathName))`, `os.Open`, `io.Copy`,
  and `writerBoundary = writer.Boundary()` only after a successful copy;
* `dirCall`: `createDirectoryMultiPartBody` — `os.ReadDir` then the loop,
  which never returns an error of its own;
* `loopCall`: directory entries loop — a subdirectory entry recurses into
  `pathName + file.Name()` (no separator, result and error discarded); a
  file entry calls `createMultiPartBody(pathName + "/" + file.Name(), ...)`,
  capturing its boundary (and discarding its error) exactly when
  `index == 0 || writerBoundary == ""`. -/
def runV1 (fs : FS) : Nat → MpCall → MultipartWriter →
    MultipartWriter × String × Option GoError
  | 0, _, w => (w, "", none)
  | fuel+1, .fileCall pathName, w =>
    match osStat fs pathName with
    | none => (w, "", some (GoError.ioError pathName))
    | some true =>
      match runV1 fs fuel (.dirCall pathName) w with
      | (w2, b, _) => (w2, b, none)
    | some false =>
      let w2 := w.createFormFile "file" (pathBase pathName)
      match osOpen fs pathName with
      | none => (w2, "", some (GoError.ioError pathName))
      | some h =>
        match ioCopyFile w2 h with
        | (w3, true) => (w3, "", some (GoError.ioError pathName))
        | (w3, false) => (w3, w3.boundary, none)
  | fuel+1, .dirCall pathName, w =>
    match osReadDir fs pathName with
    | none => (w, "", some (GoError.ioError pathName))
    | some entries => runV1 fs fuel (.loopCall pathName entries 0 "") w
  | _+1, .loopCall _ [] _ wb, w => (w, wb, none)
  | fuel+1, .loopCall pathName (e :: rest) index wb, w =>
    if e.isDir then
      match runV1 fs fuel (.dirCall (pathName ++ e.name)) w with
      | (w2, _, _) => runV1 fs fuel (.loopCall pathName rest (index+1) wb) w2
    else
      if index = 0 ∨ wb = "" then
        match runV1 fs fuel (.fileCall (pathName ++ "/" ++ e.name)) w with
        | (w2, b, _) => runV1 fs fuel (.loopCall pathName rest (index+1) b) w2
      else
        match runV1 fs fuel (.fileCall (pathName ++ "/" ++ e.name)) w with
        | (w2, _, _) => runV1 fs fuel (.loopCall pathName rest (index+1) wb) w2

/-- Embedding of the free function `createMultiPartBody`. -/
def createMultiPartBody (fs : FS) (fuel : Nat) (pathName : String)
    (w : MultipartWriter) : MultipartWriter × String × Option GoError :=
  runV1 fs fuel (.fileCall pathName) w

/-- Embedding of the free function `createDirectoryMultiPartBody`. -/
def createDirectoryMultiPartBody (fs : FS) (fuel : Nat) (pathName : String)
    (w : MultipartWriter) : MultipartWriter × String × Option GoError :=
  runV1 fs fuel (.dirCall pathName) w

/-- Embedding of the free-function generation of `(*Client).Add`: build the
multipart body, abort on its error, close the writer, build the POST
request whose `Content-Type` boundary is the string returned by
`createMultiPartBody`, send it, and feed the response through
`readIPFSResponse` with a `nil` error. -/
def Add (c : Client) (b : String) (fs : FS) (fuel : Nat) (pathName : String)
    (parse : JsonParse) (transport : Transport) : AddOutcome :=
  let w := newWriter b
  match createMultiPartBody fs fuel pathName w with
  | (_, _, some e) => ⟨[], none, none, some e⟩
  | (w1, boundary, none) =>
    let w2 := w1.close
    let req : Request :=
      { method := "POST", url := c.url ++ apiEndpoint "add",
        contentTypeBoundary := some boundary, body := some w2.toBody }
    doRequest parse transport req

end V1

namespace CL

/-- Embedding of the method `(*Client).createMultiPartBody(file, fileName)`:
fresh writer, `CreateFormFile("file", fileName)` (note: `fileName` is used
verbatim), a checked `io.Copy` from the given reader, `writer.Close()`, and
a POST request whose `Content-Type` boundary is `writer.Boundary()`. -/
def createMultiPartBody (c : Client) (b : String) (file : Bool × String)
    (fileName : String) : Except GoError Request :=
  let w := newWriter b
  let w1 := w.createFormFile "file" fileName
  match ioCopyFile w1 file with
  | (_, true) => .error (GoError.ioError fileName)
  | (w2, false) =>
    let w3 := w2.close
    .ok { method := "POST", url := c.url ++ apiEndpoint "add",
          contentTypeBoundary := some w3.boundary, body := some w3.toBody }

/-- The entries loop of the method
`(*Client).createDirectoryMultiPartBody`: a directory entry is skipped with
`continue`; a file entry gets `CreateFormFile("file", file.Name())`, a
checked `os.Open(path + "/" + file.Name())`, and an `io.Copy` whose error
the source assigns to `err` but never checks. -/
def dirLoop (fs : FS) (path : String) :
    MultipartWriter → List DirEntry → Except GoError MultipartWriter
  | w, [] => .ok w
  | w, e :: rest =>
    if e.isDir then dirLoop fs path w rest
    else
      let w1 := w.createFormFile "file" e.name
      match osOpen fs (path ++ "/" ++ e.name) with
      | none => .error (GoError.ioError (path ++ "/" ++ e.name))
      | some h =>
        match ioCopyFile w1 h with
        | (w2, _) => dirLoop fs path w2 rest

/-- Embedding of the method `(*Client).createDirectoryMultiPartBody`: fresh
writer, `os.ReadDir`, the entries loop, then a POST request whose
`Content-Type` boundary is `writer.Boundary()`.  The source never calls
`writer.Close()` here, so the body is left unterminated. -/
def createDirectoryMultiPartBody (c : Client) (b : String) (fs : FS)
    (path : String) : Except GoError Request :=
  let w := newWriter b
  match osReadDir fs path with
  | none => .error (GoError.ioError path)
  | some entries =>
    match dirLoop fs path w entries with
    | .error e => .error e
    | .ok w1 =>
      .ok { method := "POST", url := c.url ++ apiEndpoint "add",
            contentTypeBoundary := some w1.boundary, body := some w1.toBody }

/-- Embedding of the method generation of `(*Client).Add`: `os.Stat`
dispatch; a directory goes through `createDirectoryMultiPartBody`; a file
is opened with `os.Open` and passed to `createMultiPartBody` together with
the full `pathName` as the part's file name; the built request is sent and
a successful response goes through `readIPFSResponse` with a `nil`
error. -/
def Add (c : Client) (b : String) (fs : FS) (pathName : String)
    (parse : JsonParse) (transport : Transport) : AddOutcome :=
  match osStat fs pathName with
  | none => ⟨[], none, none, some (GoError.ioError pathName)⟩
  | some true =>
    match createDirectoryMultiPartBody c b fs pathName with
    | .error e => ⟨[], none, none, some e⟩
    | .ok req => doRequest parse transport req
  | some false =>
    match osOpen fs pathName with
    | none => ⟨[], none, none, some (GoError.ioError pathName)⟩
    | some h =>
      match createMultiPartBody c b h pathName with
      | .error e => ⟨[], none, none, some e⟩
      | .ok req => doRequest parse transport req

/-- Embedding of `(*Client).AddBinary(content, fileName)`: build the
single-part request from the given reader and send it. -/
def AddBinary (c : Client) (b : String) (content : Bool × String)
    (fileName : String) (parse : JsonParse) (transport : Transport) :
    AddOutcome :=
  match createMultiPartBody c b content fileName with
  | .error e => ⟨[], none, none, some e⟩
  | .ok req => doRequest parse transport req

end CL

/-- The field name and file name of a part (its signature in the
`Content-Disposition` header), ignoring the content. -/
def partSig (p : Part) : String × String := (p.fieldname, p.filename)

theorem strAppend_assoc (a b c : String) : a ++ b ++ c = a ++ (b ++ c) :=
  String.ext (by simp [String.data_append])

theorem appendToLast_sig (ps : List Part) (s : String) :
    (appendToLast ps s).map partSig = ps.map partSig := by
  induction ps with
  | nil => rfl
  | cons p rest ih =>
    cases rest with
    | nil => rfl
    | cons q qs => simpa [appendToLast] using ih

theorem ioCopyFile_fst_sig (w : MultipartWriter) (h : Bool × String) :
    ((ioCopyFile w h).1).parts.map partSig = w.parts.map partSig ∧
    ((ioCopyFile w h).1).boundary = w.boundary ∧
    ((ioCopyFile w h).1).closed = w.closed := by
  unfold ioCopyFile
  split <;> simp [appendToLast_sig]

theorem doRequest_sent (parse : JsonParse) (transport : Transport)
    (req : Request) : (doRequest parse transport req).sent = [req] := by
  unfold doRequest
  cases transport req <;> simp

theorem readIPFSResponse_snd_closed (parse : JsonParse) (r : Response) :
    ((readIPFSResponse parse r).2).bodyClosed = true := by
  unfold readIPFSResponse
  cases hb : r.bodyData with
  | none => simp
  | some bytes =>
    cases hp : parse bytes with
    | none => simp [hp]
    | some v => simp [hp]

theorem doRequest_finalResp_closed (parse : JsonParse) (transport : Transport)
    (req : Request) (x : Response)
    (h : (doRequest parse transport req).finalResp = some x) :
    x.bodyClosed = true := by
  unfold doRequest at h
  cases htr : transport req with
  | error e => simp only [htr] at h; simp at h
  | ok resp =>
    simp only [htr] at h
    rcases hr : readIPFSResponse parse resp with ⟨ret, r2⟩
    simp only [hr] at h
    obtain rfl : r2 = x := by simpa using h
    have hc := readIPFSResponse_snd_closed parse resp
    rw [hr] at hc
    exact hc

theorem takeWhile_all_stop (p : Char → Bool) (l : List Char) (x : Char)
    (m : List Char) (hl : ∀ c ∈ l, p c = true) (hx : p x = false) :
    (l ++ x :: m).takeWhile p = l := by
  induction l with
  | nil => simp [List.takeWhile_cons, hx]
  | cons c t ih =>
    have hc := hl c (by simp)
    simp only [List.cons_append, List.takeWhile_cons, hc, if_true]
    rw [ih (fun c' hc' => hl c' (by simp [hc']))]

theorem pathBase_append (d a : String) (h1 : a.data ≠ [])
    (h2 : ∀ ch ∈ a.data, (ch == '/') = false) :
    pathBase (d ++ "/" ++ a) = a := by
  obtain ⟨ch, t, hct⟩ : ∃ ch t, a.data.reverse = ch :: t := by
    cases hx : a.data.reverse with
    | nil =>
      exact absurd (by simpa using congrArg List.reverse hx) h1
    | cons ch t => exact ⟨ch, t, rfl⟩
  have hchmem : ch ∈ a.data := by
    have hm : ch ∈ a.data.reverse := by rw [hct]; simp
    simpa using hm
  have hch : (ch == '/') = false := h2 ch hchmem
  have hdata : (d ++ "/" ++ a).data = d.data ++ '/' :: a.data := by
    rw [String.data_append, String.data_append, List.append_assoc]
    rfl
  have hne : ¬((d ++ "/" ++ a).data = []) := by rw [hdata]; simp
  have hrev : (d ++ "/" ++ a).data.reverse
      = ch :: (t ++ '/' :: d.data.reverse) := by
    rw [hdata, List.reverse_append, List.reverse_cons, hct]
    simp [List.append_assoc]
  have hall : ∀ c ∈ ch :: t, (!(c == '/')) = true := by
    intro c hc
    have hcr : c ∈ a.data.reverse := by rw [hct]; exact hc
    have := h2 c (by simpa using hcr)
    simp [this]
  have htake : (ch :: (t ++ '/' :: d.data.reverse)).takeWhile
      (fun c => !(c == '/')) = ch :: t := by
    have hstep := takeWhile_all_stop (fun c => !(c == '/')) (ch :: t) '/'
      d.data.reverse hall (by simp)
    simpa [List.cons_append] using hstep
  simp only [pathBase, hne, if_false]
  rw [hrev, List.dropWhile_cons]
  simp only [hch, Bool.false_eq_true, if_false]
  rw [htake]
  rw [if_neg (by simp)]
  rw [← hct, List.reverse_reverse]

/-- Characterization of the entries loop of the method implementation when
every regular-file entry can be opened: the loop succeeds, keeps the
boundary and terminator state, and appends exactly one part per
regular-file entry, in listing order, named `"file"` with the entry's
name as its file name. -/
theorem CL.dirLoop_ok (fs : FS) (p : String) (entries : List DirEntry) :
    ∀ w : MultipartWriter,
    (∀ e ∈ entries, e.isDir = false →
        osOpen fs (p ++ "/" ++ e.name) ≠ none) →
    ∃ w', CL.dirLoop fs p w entries = .ok w' ∧ w'.boundary = w.boundary ∧
      w'.closed = w.closed ∧
      w'.parts.map partSig = w.parts.map partSig ++
        (entries.filter fun e => !e.isDir).map (fun e => ("file", e.name)) := by
  induction entries with
  | nil =>
    intro w _
    exact ⟨w, rfl, rfl, rfl, by simp⟩
  | cons e rest ih =>
    intro w hopen
    by_cases hd : e.isDir
    · obtain ⟨w', h1, h2, h3, h4⟩ :=
        ih w (fun e' he' => hopen e' (List.mem_cons_of_mem _ he'))
      refine ⟨w', ?_, h2, h3, ?_⟩
      · simp [CL.dirLoop, hd, h1]
      · simp [h4, hd]
    · have hne := hopen e (List.mem_cons_self _ _) (by simpa using hd)
      obtain ⟨hh, hho⟩ : ∃ x, osOpen fs (p ++ "/" ++ e.name) = some x := by
        cases hx : osOpen fs (p ++ "/" ++ e.name) with
        | none => exact absurd hx hne
        | some x => exact ⟨x, rfl⟩
      rcases hio : ioCopyFile (w.createFormFile "file" e.name) hh with ⟨w2, flag⟩
      have hsig := ioCopyFile_fst_sig (w.createFormFile "file" e.name) hh
      rw [hio] at hsig
      obtain ⟨hs1, hs2, hs3⟩ := hsig
      obtain ⟨w', h1, h2, h3, h4⟩ :=
        ih w2 (fun e' he' => hopen e' (List.mem_cons_of_mem _ he'))
      refine ⟨w', ?_, ?_, ?_, ?_⟩
      · simp [CL.dirLoop, hd, hho, hio, h1]
      · rw [h2, hs2]; rfl
      · rw [h3, hs3]; rfl
      · rw [h4, hs1]
        simp [MultipartWriter.createFormFile, partSig, hd]

/-! Concrete fixtures shared by the claim theorems and witnesses. -/

/-- A concrete client. -/
def c0 : Client := ⟨"http://h"⟩

/-- A transport that always succeeds with a 200 response whose body reads
as the empty string and is not yet closed. -/
def okTransport : Transport := fun _ => .ok ⟨200, some "", false⟩

/-- A parse function on which `json.Unmarshal` always fails. -/
def noParse : JsonParse := fun _ => none

/-- A transport whose response arrives but whose body read fails. -/
def failBodyTransport : Transport := fun _ => .ok ⟨200, none, false⟩

/-- Filesystem for the C1 counterexample: directory `/a` has the single
subdirectory entry `b`, and the concatenation `/a` + `b` = `/ab` (no
separator) happens to exist as a directory holding the file `c`. -/
def fsC1 : FS :=
  [("/a", .dir [⟨"b", true⟩]), ("/ab", .dir [⟨"c", false⟩]),
   ("/ab/c", .file "X" true true)]

/-- Filesystem with the single regular file `/tmp/test.txt`. -/
def fsC2 : FS := [("/tmp/test.txt", .file "test for file" true true)]

/-- Directory `/d` with one regular file `a` that opens but whose reads
fail (an `io.Copy` error). -/
def fsC3a : FS :=
  [("/d", .dir [⟨"a", false⟩]), ("/d/a", .file "ZZ" true false)]

/-- Directory `/d` with one regular file `a` on which `os.Open` fails. -/
def fsC3b : FS :=
  [("/d", .dir [⟨"a", false⟩]), ("/d/a", .file "ZZ" false true)]

/-- An empty directory `/d`. -/
def fsC8 : FS := [("/d", .dir [])]

/-- A single readable regular file `/f`. -/
def fsF : FS := [("/f", .file "data" true true)]

/-- Directory `/d` with exactly the regular files `one` and `two` and a
subdirectory `sub`, all files readable. -/
def fsD : FS :=
  [("/d", .dir [⟨"one", false⟩, ⟨"sub", true⟩, ⟨"two", false⟩]),
   ("/d/one", .file "AA" true true), ("/d/two", .file "BB" true true)]

/-- Directory `/d2` with exactly the regular files `one` and `two`, both
readable, and no subdirectories. -/
def fsD2 : FS :=
  [("/d2", .dir [⟨"one", false⟩, ⟨"two", false⟩]),
   ("/d2/one", .file "AA" true true), ("/d2/two", .file "BB" true true)]

theorem empty_str_append (s : String) : "" ++ s = s := rfl

/-! Claim theorems. -/

/-- C1 (counterexample): the claim says `Add` on a directory adds parts
only for the directory's immediate regular-file entries and skips every
subdirectory entry without recursing.  In the free-function implementation
(`src/api.go` and the first copy of `src/client/api.go`) a subdirectory
entry is not skipped: the code recurses into
`pathName + file.Name()` — the parent path concatenated with the entry
name and no separator.  On `fsC1` the directory `/a` has no immediate
regular-file entries at all, yet the request `Add("/a")` sends carries one
part, named for the file `c` that lives in the unrelated directory `/ab`,
so the claim is false of that implementation. -/
theorem C1_counterexample :
    ((V1.Add c0 "B" fsC1 6 "/a" noParse okTransport).sent.map
        fun r => r.body.map fun mb => mb.parts.map fun p => p.filename)
      = [some ["c"]]
    ∧ osReadDir fsC1 "/a" = some [⟨"b", true⟩]
    ∧ ([(⟨"b", true⟩ : DirEntry)].filter fun e => !e.isDir) = [] := by
  decide

/-- C1 (amended): in the method implementation of
`(*Client).createDirectoryMultiPartBody` (second copy of
`src/client/api.go`), `Add` on a directory whose regular files can all be
opened sends exactly one request whose multipart parts are, in listing
order, one `"file"` part per immediate regular-file entry, named by that
entry, and every subdirectory entry is skipped without being recursed
into; the free-function implementation instead recurses into the
separator-less concatenation of parent path and entry name. -/
theorem C1_amended_dir_parts (c : Client) (b : String) (fs : FS) (p : String)
    (entries : List DirEntry) (parse : JsonParse) (transport : Transport)
    (hstat : osStat fs p = some true)
    (hdir : osReadDir fs p = some entries)
    (hopen : ∀ e ∈ entries, e.isDir = false →
        osOpen fs (p ++ "/" ++ e.name) ≠ none) :
    ∃ req, (CL.Add c b fs p parse transport).sent = [req] ∧
      ∃ mb, req.body = some mb ∧
        mb.parts.map partSig
          = (entries.filter fun e => !e.isDir).map (fun e => ("file", e.name)) := by
  obtain ⟨w', h1, _, _, h4⟩ := CL.dirLoop_ok fs p entries (newWriter b) hopen
  have hreq : CL.createDirectoryMultiPartBody c b fs p
      = .ok { method := "POST", url := c.url ++ apiEndpoint "add",
              contentTypeBoundary := some w'.boundary,
              body := some w'.toBody } := by
    unfold CL.createDirectoryMultiPartBody
    simp only [hdir, h1]
  refine ⟨{ method := "POST", url := c.url ++ apiEndpoint "add",
            contentTypeBoundary := some w'.boundary,
            body := some w'.toBody }, ?_, w'.toBody, rfl, ?_⟩
  · unfold CL.Add
    simp only [hstat, hreq]
    exact doRequest_sent _ _ _
  · simpa [MultipartWriter.toBody, newWriter] using h4

/-- C1 (witness for the amended theorem): on `fsD` the directory `/d` has
regular files `one` and `two` and subdirectory `sub`; the request carries
exactly the parts `("file", "one")` and `("file", "two")`. -/
theorem C1_amended_dir_parts_witness :
    ∃ req, (CL.Add c0 "B" fsD "/d" noParse okTransport).sent = [req] ∧
      ∃ mb, req.body = some mb ∧
        mb.parts.map partSig
          = (([⟨"one", false⟩, ⟨"sub", true⟩, ⟨"two", false⟩] :
              List DirEntry).filter fun e => !e.isDir).map
              (fun e => ("file", e.name)) :=
  C1_amended_dir_parts c0 "B" fsD "/d" _ noParse okTransport
    (by decide) (by decide) (by decide)

/-- C2 (code evaluation at the failing input): on a regular file the
method generation of `(*Client).Add` hands the full `pathName` — not its
base name — to `CreateFormFile`, so the single part of the request for
`/tmp/test.txt` is named `/tmp/test.txt`, which differs from the base name
`test.txt`; the free-function generation does use `path.Base` and names
the part `test.txt`. -/
theorem C2_full_path_filename :
    ((CL.Add c0 "B" fsC2 "/tmp/test.txt" noParse okTransport).sent.map
        fun r => r.body.map fun mb => mb.parts)
      = [some [⟨"file", "/tmp/test.txt", "test for file"⟩]]
    ∧ pathBase "/tmp/test.txt" = "test.txt"
    ∧ ("/tmp/test.txt" : String) ≠ "test.txt"
    ∧ ((V1.Add c0 "B" fsC2 3 "/tmp/test.txt" noParse okTransport).sent.map
        fun r => r.body.map fun mb => mb.parts)
      = [some [⟨"file", "test.txt", "test for file"⟩]] := by
  decide

/-- C3 (code evaluation at the failing input): a failure while building a
part of a directory upload does not abort the request.  In the method
implementation the `io.Copy` error is assigned but never checked, so on
`fsC3a` (file `a` opens, its reads fail) `Add` sends the request anyway
and returns a `nil` error; in the free-function implementation every error
of the loop body is discarded, so on `fsC3b` (file `a` cannot even be
opened) `Add` also sends the request and returns a `nil` error. -/
theorem C3_swallowed_build_error :
    ((CL.Add c0 "B" fsC3a "/d" noParse okTransport).err = none
      ∧ (CL.Add c0 "B" fsC3a "/d" noParse okTransport).sent.length = 1)
    ∧ ((V1.Add c0 "B" fsC3b 5 "/d" noParse okTransport).err = none
      ∧ (V1.Add c0 "B" fsC3b 5 "/d" noParse okTransport).sent.length = 1) := by
  decide

/-- C8 (code evaluation at the failing input): in the free-function
generation, `(*Client).Add` puts the `writerBoundary` string returned by
`createMultiPartBody` into the `Content-Type` header, but for an empty
directory the loop never assigns it, so the header announces the empty
boundary while the body written by the writer (closed by `writer.Close()`)
uses the writer's actual boundary — here `"BOUND60"`. -/
theorem C8_empty_dir_boundary_mismatch :
    (V1.Add c0 "BOUND60" fsC8 4 "/d" noParse okTransport).sent.map
        (fun r => (r.contentTypeBoundary, r.body.map fun mb => mb.boundary))
      = [(some "", some "BOUND60")]
    ∧ (some "" : Option String) ≠ some "BOUND60" := by
  decide

/-- C9: when the HTTP exchange succeeds but reading the response body
fails, `readIPFSResponse` returns Go `nil` and `Add` wraps it with a `nil`
error, so the caller of either generation of `Add` — or of `AddBinary` —
receives neither a result nor an error. -/
theorem C9_nil_result_nil_error :
    ((CL.Add c0 "B" fsF "/f" noParse failBodyTransport).result = none
      ∧ (CL.Add c0 "B" fsF "/f" noParse failBodyTransport).err = none)
    ∧ ((V1.Add c0 "B" fsF 3 "/f" noParse failBodyTransport).result = none
      ∧ (V1.Add c0 "B" fsF 3 "/f" noParse failBodyTransport).err = none)
    ∧ ((CL.AddBinary c0 "B" (true, "data") "f" noParse failBodyTransport).result = none
      ∧ (CL.AddBinary c0 "B" (true, "data") "f" noParse failBodyTransport).err = none) := by
  decide

/-- C4: when the HTTP exchange completes without a transport error and the
body reads as bytes on which `json.Unmarshal` fails, both generations of
`Add` return the zero-valued `IPFSResponse` together with a `nil` error:
`readIPFSResponse` ignores the unmarshal error and returns the
zero-initialised struct, and `Add` wraps it with `nil`. -/
theorem C4_unparsable_response_zero_result (c : Client) (b : String) (fs : FS)
    (p content s : String) (parse : JsonParse) (resp : Response) (fuel : Nat)
    (hstat : osStat fs p = some false)
    (hopen : osOpen fs p = some (true, content))
    (hbody : resp.bodyData = some s)
    (hparse : parse s = none) :
    ((CL.Add c b fs p parse (fun _ => .ok resp)).result = some IPFSResponse.zero
      ∧ (CL.Add c b fs p parse (fun _ => .ok resp)).err = none)
    ∧ ((V1.Add c b fs (fuel+1) p parse (fun _ => .ok resp)).result
        = some IPFSResponse.zero
      ∧ (V1.Add c b fs (fuel+1) p parse (fun _ => .ok resp)).err = none) := by
  constructor
  · constructor <;>
      simp [CL.Add, hstat, hopen, CL.createMultiPartBody, ioCopyFile,
        doRequest, readIPFSResponse, hbody, hparse]
  · constructor <;>
      simp [V1.Add, V1.createMultiPartBody, V1.runV1, hstat, hopen, ioCopyFile,
        doRequest, readIPFSResponse, hbody, hparse]

/-- C4 (witness): uploading the readable file `/f` against a transport
whose response body reads as `notjson`, which `noParse` fails to parse,
yields the zero-valued result and a `nil` error in both generations. -/
theorem C4_unparsable_response_zero_result_witness :
    (osStat fsF "/f" = some false ∧ osOpen fsF "/f" = some (true, "data")
      ∧ (⟨200, some "notjson", false⟩ : Response).bodyData = some "notjson"
      ∧ noParse "notjson" = none)
    ∧ (((CL.Add c0 "B" fsF "/f" noParse
          (fun _ => .ok ⟨200, some "notjson", false⟩)).result
            = some IPFSResponse.zero
        ∧ (CL.Add c0 "B" fsF "/f" noParse
          (fun _ => .ok ⟨200, some "notjson", false⟩)).err = none)
      ∧ ((V1.Add c0 "B" fsF (0+1) "/f" noParse
          (fun _ => .ok ⟨200, some "notjson", false⟩)).result
            = some IPFSResponse.zero
        ∧ (V1.Add c0 "B" fsF (0+1) "/f" noParse
          (fun _ => .ok ⟨200, some "notjson", false⟩)).err = none)) :=
  ⟨⟨by decide, by decide, rfl, rfl⟩,
    C4_unparsable_response_zero_result c0 "B" fsF "/f" "data" "notjson"
      noParse ⟨200, some "notjson", false⟩ 0 (by decide) (by decide) rfl rfl⟩

/-- C5: `Cat` hands the transport exactly one request — a POST to
`{base}/api/v0/cat?arg={id}` with no body and no `Content-Type` header —
and on a non-error exchange returns the transport's response completely
untouched: the pair it returns is literally the request list and the raw
response, so the body is unread and unclosed and the status code (here an
arbitrary `r`, of any status) is never inspected. -/
theorem C5_cat_single_post_raw (c : Client) (id : String)
    (transport : Transport) (r : Response)
    (h : transport (catRequest c id) = .ok r) :
    Cat c id transport = ([catRequest c id], .ok r)
    ∧ (catRequest c id).method = "POST"
    ∧ (catRequest c id).url = c.url ++ "/api/v0/cat?arg=" ++ id
    ∧ (catRequest c id).body = none
    ∧ (catRequest c id).contentTypeBoundary = none := by
  refine ⟨?_, rfl, ?_, rfl, rfl⟩
  · unfold Cat
    simp only [h]
  · show c.url ++ apiEndpoint "cat" ++ "?arg=" ++ id
        = c.url ++ "/api/v0/cat?arg=" ++ id
    rw [strAppend_assoc c.url (apiEndpoint "cat") "?arg="]
    have he : apiEndpoint "cat" ++ "?arg=" = "/api/v0/cat?arg=" := by decide
    rw [he]

/-- C5 (witness): `Cat` against a transport answering 404 with body
`nope` returns that response unchanged, with its body still open. -/
theorem C5_cat_single_post_raw_witness :
    Cat c0 "Qm" (fun _ => .ok ⟨404, some "nope", false⟩)
      = ([catRequest c0 "Qm"], .ok ⟨404, some "nope", false⟩)
    ∧ (catRequest c0 "Qm").method = "POST"
    ∧ (catRequest c0 "Qm").url = c0.url ++ "/api/v0/cat?arg=" ++ "Qm"
    ∧ (catRequest c0 "Qm").body = none
    ∧ (catRequest c0 "Qm").contentTypeBoundary = none :=
  C5_cat_single_post_raw c0 "Qm" (fun _ => .ok ⟨404, some "nope", false⟩) _ rfl

/-- C6: on a directory with exactly the two regular-file entries `a` and
`bn` (in that listing order) and no subdirectories, with both files
openable and readable, both generations of `Add` send one request whose
multipart body holds exactly two parts named `"file"`, the first carrying
`a` with its content and the second `bn` with its content, in
directory-listing order. -/
theorem C6_two_file_directory (c : Client) (b : String) (fs : FS)
    (p a bn ca cb : String) (parse : JsonParse) (transport : Transport)
    (fuel : Nat)
    (hb : ¬(b = ""))
    (hstat : osStat fs p = some true)
    (hdir : osReadDir fs p = some [⟨a, false⟩, ⟨bn, false⟩])
    (hsa : osStat fs (p ++ "/" ++ a) = some false)
    (hsb : osStat fs (p ++ "/" ++ bn) = some false)
    (hoa : osOpen fs (p ++ "/" ++ a) = some (true, ca))
    (hob : osOpen fs (p ++ "/" ++ bn) = some (true, cb))
    (ha1 : a.data ≠ []) (ha2 : ∀ ch ∈ a.data, (ch == '/') = false)
    (hb1 : bn.data ≠ []) (hb2 : ∀ ch ∈ bn.data, (ch == '/') = false) :
    (∃ req, (CL.Add c b fs p parse transport).sent = [req] ∧
      req.body.map (fun mb => mb.parts)
        = some [⟨"file", a, ca⟩, ⟨"file", bn, cb⟩])
    ∧ (∃ req, (V1.Add c b fs (fuel+5) p parse transport).sent = [req] ∧
      req.body.map (fun mb => mb.parts)
        = some [⟨"file", a, ca⟩, ⟨"file", bn, cb⟩]) := by
  constructor
  · have loopEq : CL.dirLoop fs p (newWriter b) [⟨a, false⟩, ⟨bn, false⟩]
        = .ok { boundary := b,
                parts := [⟨"file", a, ca⟩, ⟨"file", bn, cb⟩],
                closed := false } := by
      simp [CL.dirLoop, hoa, hob, ioCopyFile, newWriter,
        MultipartWriter.createFormFile, appendToLast, empty_str_append]
    have hreq : CL.createDirectoryMultiPartBody c b fs p
        = .ok { method := "POST", url := c.url ++ apiEndpoint "add",
                contentTypeBoundary := some b,
                body := some ⟨b, [⟨"file", a, ca⟩, ⟨"file", bn, cb⟩], false⟩ } := by
      unfold CL.createDirectoryMultiPartBody
      simp only [hdir, loopEq]
      rfl
    refine ⟨{ method := "POST", url := c.url ++ apiEndpoint "add",
              contentTypeBoundary := some b,
              body := some ⟨b, [⟨"file", a, ca⟩, ⟨"file", bn, cb⟩], false⟩ },
            ?_, rfl⟩
    unfold CL.Add
    simp only [hstat, hreq]
    exact doRequest_sent _ _ _
  · have hpa : pathBase (p ++ "/" ++ a) = a := pathBase_append p a ha1 ha2
    have hpb : pathBase (p ++ "/" ++ bn) = bn := pathBase_append p bn hb1 hb2
    have hcm : V1.createMultiPartBody fs (fuel+5) p (newWriter b)
        = ({ boundary := b,
             parts := [⟨"file", a, ca⟩, ⟨"file", bn, cb⟩],
             closed := false }, b, none) := by
      unfold V1.createMultiPartBody
      simp [V1.runV1, hstat, hdir, hsa, hsb, hoa, hob, hpa, hpb, ioCopyFile,
        newWriter, MultipartWriter.createFormFile, appendToLast, hb,
        empty_str_append]
    refine ⟨{ method := "POST", url := c.url ++ apiEndpoint "add",
              contentTypeBoundary := some b,
              body := some ⟨b, [⟨"file", a, ca⟩, ⟨"file", bn, cb⟩], true⟩ },
            ?_, rfl⟩
    unfold V1.Add
    simp only [hcm]
    exact doRequest_sent _ _ _

/-- C6 (witness): on `fsD2` the directory `/d2` holds exactly the readable
files `one` and `two`; both generations send one request with exactly the
parts `("file", "one", "AA")` and `("file", "two", "BB")`, in that
order. -/
theorem C6_two_file_directory_witness :
    (∃ req, (CL.Add c0 "B60" fsD2 "/d2" noParse okTransport).sent = [req] ∧
      req.body.map (fun mb => mb.parts)
        = some [⟨"file", "one", "AA"⟩, ⟨"file", "two", "BB"⟩])
    ∧ (∃ req, (V1.Add c0 "B60" fsD2 (0+5) "/d2" noParse okTransport).sent
        = [req] ∧
      req.body.map (fun mb => mb.parts)
        = some [⟨"file", "one", "AA"⟩, ⟨"file", "two", "BB"⟩]) :=
  C6_two_file_directory c0 "B60" fsD2 "/d2" "one" "two" "AA" "BB" noParse
    okTransport 0 (by decide) (by decide) (by decide) (by decide) (by decide)
    (by decide) (by decide) (by decide) (by decide) (by decide) (by decide)

/-- C7: on a path on which `os.Stat` fails, both generations of `Add`
return an `IOError` and give nothing to the transport: the list of sent
requests is empty. -/
theorem C7_nonexistent_path (c : Client) (b : String) (fs : FS) (p : String)
    (fuel : Nat) (parse : JsonParse) (transport : Transport)
    (h : osStat fs p = none) :
    CL.Add c b fs p parse transport
      = ⟨[], none, none, some (GoError.ioError p)⟩
    ∧ V1.Add c b fs (fuel+1) p parse transport
      = ⟨[], none, none, some (GoError.ioError p)⟩ := by
  constructor
  · unfold CL.Add
    simp [h]
  · unfold V1.Add V1.createMultiPartBody
    simp [V1.runV1, h]

/-- C7 (witness): `Add("/x")` on the empty filesystem fails with an
`IOError` for `/x` and sends no request, in both generations. -/
theorem C7_nonexistent_path_witness :
    osStat ([] : FS) "/x" = none
    ∧ (CL.Add c0 "B" ([] : FS) "/x" noParse okTransport
        = ⟨[], none, none, some (GoError.ioError "/x")⟩
      ∧ V1.Add c0 "B" ([] : FS) (0+1) "/x" noParse okTransport
        = ⟨[], none, none, some (GoError.ioError "/x")⟩) :=
  ⟨by decide, C7_nonexistent_path c0 "B" [] "/x" 0 noParse okTransport (by decide)⟩

/-- C10: every response an `Add` or `AddBinary` call received has its body
closed by the time the call returns (the `defer resp.Body.Close()` in
`readIPFSResponse` runs on every path through it), in both generations —
in contrast with `Cat`, which C5 shows hands the body back untouched. -/
theorem C10_responses_closed (c : Client) (b : String) (fs : FS) (p : String)
    (content : Bool × String) (fn : String) (parse : JsonParse)
    (transport : Transport) (fuel : Nat) (x y z : Response) :
    ((CL.Add c b fs p parse transport).finalResp = some x
      → x.bodyClosed = true)
    ∧ ((CL.AddBinary c b content fn parse transport).finalResp = some y
      → y.bodyClosed = true)
    ∧ ((V1.Add c b fs fuel p parse transport).finalResp = some z
      → z.bodyClosed = true) := by
  refine ⟨?_, ?_, ?_⟩
  · intro h
    unfold CL.Add at h
    split at h
    · simp at h
    · split at h
      · simp at h
      · exact doRequest_finalResp_closed _ _ _ _ h
    · split at h
      · simp at h
      · split at h
        · simp at h
        · exact doRequest_finalResp_closed _ _ _ _ h
  · intro h
    unfold CL.AddBinary at h
    split at h
    · simp at h
    · exact doRequest_finalResp_closed _ _ _ _ h
  · intro h
    unfold V1.Add at h
    rcases hcm : V1.createMultiPartBody fs fuel p (newWriter b) with ⟨w1, bd, err⟩
    cases err with
    | some e =>
      simp only [hcm] at h
      simp at h
    | none =>
      simp only [hcm] at h
      exact doRequest_finalResp_closed _ _ _ _ h

/-- C10 (witness): the response received while adding the file `/f`
against the always-200 transport ends up closed. -/
theorem C10_responses_closed_witness :
    (CL.Add c0 "B" fsF "/f" noParse okTransport).finalResp
      = some ⟨200, some "", true⟩
    ∧ (⟨200, some "", true⟩ : Response).bodyClosed = true :=
  ⟨by decide,
    (C10_responses_closed c0 "B" fsF "/f" (true, "data") "f" noParse
      okTransport 3 ⟨200, some "", true⟩ ⟨200, some "", true⟩
      ⟨200, some "", true⟩).1 (by decide)⟩

end IpfsApi
